import Mathlib

/-!
Shallow embedding of the control-loop core of the air-heater repository
(`airheater_model.py` and `simulator.py`), over the rationals.

Conventions of the embedding:
* Python floats become `ℚ` so every definition is computable and concrete
  states can be evaluated by `decide` / `norm_num`.
* The Gaussian noise sample drawn in `AirHeater.update` and the noise implicit
  in a simulation step are modelled as an explicit external input `noise : ℚ`
  (the spec itself treats the noise sample as an external input: returned
  value minus noise equals the new internal state).
* Python operations that can raise (`ZeroDivisionError` in
  `PIController.update`) return `Option`; `none` is a raised exception.
* Python attribute semantics that matter to the claims are embedded
  faithfully: in `simulator.py` the guard reads `if not self.is_running:`
  (the bound method, not a call), and the `except` branch assigns
  `self.is_running = False`, shadowing the method with a `bool` instance
  attribute.  The simulator state therefore carries
  `is_running_attr : Option Bool` — `none` while the name still resolves to
  the bound method, `some b` once an instance attribute `b` shadows it.
* Database traffic (`DatabaseHandler`) is an external collaborator that the
  spec puts out of scope; `store_measurement` has no effect on loop state and
  `_load_latest_settings` on an empty database changes nothing, so the
  embedded constructor corresponds to construction with an empty database.
-/

namespace AirHeaterRepo

/-- Python `max(0.0, min(5.0, u))`: the input/output saturation used by both
`AirHeater.update` and `PIController.update`. -/
def sat5 (u : ℚ) : ℚ := max 0 (min 5 u)

/-! ## `AirHeater` (plant model), from `airheater_model.py` lines 3–35 -/

structure AirHeater where
  Kh : ℚ
  theta_t : ℚ
  Ts : ℚ
  Tenv : ℚ
  noise_std : ℚ
  delay_steps : ℕ
  Tout : ℚ
  u_buffer : List ℚ

/-- Constructor `AirHeater.__init__`: states are `Tout = Tenv` and
`u_buffer = [0.0] * delay_steps`. -/
def AirHeater.init (Kh theta_t Ts Tenv noise_std : ℚ) (delay_steps : ℕ) :
    AirHeater :=
  { Kh := Kh, theta_t := theta_t, Ts := Ts, Tenv := Tenv,
    noise_std := noise_std, delay_steps := delay_steps,
    Tout := Tenv, u_buffer := List.replicate delay_steps 0 }

/-- The value `u_delayed` that `AirHeater.update` consumes from the delay
buffer: `self.u_buffer.append(u); u_delayed = self.u_buffer.pop(0)` after the
input saturation.  The appended list is never empty, so `headD 0` is exact. -/
def AirHeater.delayedOf (h : AirHeater) (u : ℚ) : ℚ :=
  (h.u_buffer ++ [sat5 u]).headD 0

/-- `AirHeater.update(u)`: saturate the input, push it through the delay
buffer, Euler-integrate the first-order dynamics, and return
`Tout + noise` where `noise` is the externally supplied sample of
`np.random.normal(0, noise_std)`.  Returns `(measured output, new state)`. -/
def AirHeater.update (h : AirHeater) (u noise : ℚ) : ℚ × AirHeater :=
  let u1 := sat5 u
  let buf := h.u_buffer ++ [u1]
  let u_delayed := buf.headD 0
  let buf1 := buf.tail
  let Tout1 := h.Tout + (h.Ts / h.theta_t) * (-h.Tout + h.Kh * u_delayed + h.Tenv)
  (Tout1 + noise,
   { h with Tout := Tout1, u_buffer := buf1 })

/-- Folding a whole input sequence through the plant (noise fixed to `0`,
which only affects the returned measurements, never the state). -/
def AirHeater.runInputs (h : AirHeater) (us : List ℚ) : AirHeater :=
  us.foldl (fun st u => (st.update u 0).2) h

/-- The successive delayed values `u_delayed` consumed by a run of
`AirHeater.update` over an input sequence (noise `0`, which never affects
the state). -/
def AirHeater.delayedSeq (h : AirHeater) : List ℚ → List ℚ
  | [] => []
  | u :: rest => h.delayedOf u :: ((h.update u 0).2.delayedSeq rest)

/-! ## `PIController`, from `airheater_model.py` lines 37–72 -/

structure PIController where
  Kp : ℚ
  Ti : ℚ
  Ts : ℚ
  integral : ℚ
  prev_error : ℚ
  prev_output : ℚ

/-- Constructor `PIController.__init__`. -/
def PIController.init (Kp Ti Ts : ℚ) : PIController :=
  { Kp := Kp, Ti := Ti, Ts := Ts,
    integral := 0, prev_error := 0, prev_output := 0 }

/-- `PIController.update(setpoint, measurement)`.  Python raises
`ZeroDivisionError` at `-5.0/self.Kp` when `Kp = 0`, and at
`(self.Kp/self.Ti)` when `Ti = 0`; both raises are `none` here, in the order
the interpreter hits them.  Returns `(control signal, new state)`. -/
def PIController.update (c : PIController) (setpoint measurement : ℚ) :
    Option (ℚ × PIController) :=
  let error := setpoint - measurement
  let integral1 := c.integral + c.Ts * error
  if c.Kp = 0 then none
  else
    let integral2 := max (-5 / c.Kp) (min (5 / c.Kp) integral1)
    if c.Ti = 0 then none
    else
      let u0 := c.Kp * error + (c.Kp / c.Ti) * integral2
      let u := sat5 u0
      some (u, { c with integral := integral2, prev_error := error,
                        prev_output := u })

/-! ## `LowpassFilter`, from `airheater_model.py` lines 74–86 -/

structure LowpassFilter where
  Tf : ℚ
  Ts : ℚ
  y : ℚ
  alpha : ℚ

/-- Constructor `LowpassFilter.__init__`: the coefficient
`alpha = Ts/(Tf + Ts)` is computed here and stored; it is never recomputed by
any other operation of the source. -/
def LowpassFilter.init (Tf Ts y_init : ℚ) : LowpassFilter :=
  { Tf := Tf, Ts := Ts, y := y_init, alpha := Ts / (Tf + Ts) }

/-- `LowpassFilter.update(u)`: `y ← (1 - alpha)·y + alpha·u`, returning the
new value together with the new state. -/
def LowpassFilter.update (f : LowpassFilter) (u : ℚ) : ℚ × LowpassFilter :=
  let y1 := (1 - f.alpha) * f.y + f.alpha * u
  (y1, { f with y := y1 })

/-- `n` repeated `update` calls with the same constant input `x`. -/
def LowpassFilter.iterate (f : LowpassFilter) (x : ℚ) : ℕ → LowpassFilter
  | 0 => f
  | n + 1 => ((f.iterate x n).update x).2

/-- The trajectory of `filteredValue`: the filter state after `n` constant
updates `update(x)` of the filter constructed as
`LowpassFilter(Tf, Ts, y_init)`. -/
def LowpassFilter.constRun (Tf Ts y_init x : ℚ) (n : ℕ) : ℚ :=
  ((LowpassFilter.init Tf Ts y_init).iterate x n).y

/-! ## `AirHeaterSimulator` (control loop driver), from `simulator.py` -/

structure AirHeaterSimulator where
  heater : AirHeater
  controller : PIController
  filter : LowpassFilter
  running : Bool
  setpoint : ℚ
  /-- `none`: the name `is_running` still resolves to the bound method;
  `some b`: the `except` branch has assigned the instance attribute
  `self.is_running = b`, shadowing the method. -/
  is_running_attr : Option Bool

/-- `AirHeaterSimulator.__init__` with an empty database (so
`_load_latest_settings` leaves the defaults): heater `(Kh=3.5, θt=22,
Ts=0.1, Tenv=21.5, σ=0.05)` with the default `delay_steps=2`, controller
`(Kp=2, Ti=7.5, Ts=0.1)`, filter `(Tf=0.5, Ts=0.1, y_init=21.5)`,
`_running = False`, `setpoint = 25`. -/
def AirHeaterSimulator.init : AirHeaterSimulator :=
  { heater := AirHeater.init (7/2) 22 (1/10) (43/2) (1/20) 2,
    controller := PIController.init 2 (15/2) (1/10),
    filter := LowpassFilter.init (1/2) (1/10) (43/2),
    running := false,
    setpoint := 25,
    is_running_attr := none }

/-- `start()`: `self._running = True`. -/
def AirHeaterSimulator.start (s : AirHeaterSimulator) : AirHeaterSimulator :=
  { s with running := true }

/-- `stop()`: `self._running = False`. -/
def AirHeaterSimulator.stop (s : AirHeaterSimulator) : AirHeaterSimulator :=
  { s with running := false }

/-- A call `self.is_running()`.  While the name resolves to the method it
returns `self._running`; once the `except` branch has shadowed the method
with a `bool`, the call raises `TypeError` (`none`). -/
def AirHeaterSimulator.is_running_call (s : AirHeaterSimulator) : Option Bool :=
  match s.is_running_attr with
  | none => some s.running
  | some _ => none

/-- Truthiness of the expression `self.is_running` (no call), as tested by
`if not self.is_running:` in `simulate_step`: a bound method object is always
truthy; a shadowing `bool` attribute has its own truth value. -/
def AirHeaterSimulator.is_running_truthy (s : AirHeaterSimulator) : Bool :=
  match s.is_running_attr with
  | none => true
  | some b => b

/-- `update_parameters(setpoint, kp, ti, noise_std, filter_tf)`: five plain
attribute assignments.  No validation is performed and nothing else (in
particular not `filter.alpha`) is recomputed. -/
def AirHeaterSimulator.update_parameters (s : AirHeaterSimulator)
    (setpoint kp ti noise_std filter_tf : ℚ) : AirHeaterSimulator :=
  { s with
    setpoint := setpoint,
    controller := { s.controller with Kp := kp, Ti := ti },
    heater := { s.heater with noise_std := noise_std },
    filter := { s.filter with Tf := filter_tf } }

/-- `simulate_step()`.  The guard is `if not self.is_running:` (truthiness of
the attribute, not a call).  The body reads the plant ground truth, updates
controller, plant (with the external `noise` sample) and filter, stores to the
database (external, no loop-state effect), and returns the triple.  A raised
exception lands in the `except` branch, which prints, assigns
`self.is_running = False` (shadowing the method) and returns
`(None, None, None)`.  Returns `(returned triple, new state)`. -/
def AirHeaterSimulator.simulate_step (s : AirHeaterSimulator) (noise : ℚ) :
    (Option ℚ × Option ℚ × Option ℚ) × AirHeaterSimulator :=
  if s.is_running_truthy = false then ((none, none, none), s)
  else
    let current_temp := s.heater.Tout
    match s.controller.update s.setpoint current_temp with
    | none =>
        ((none, none, none), { s with is_running_attr := some false })
    | some (control_signal, controller1) =>
        let p := s.heater.update control_signal noise
        let q := s.filter.update p.1
        ((some p.1, some q.1, some control_signal),
         { s with heater := p.2, controller := controller1, filter := q.2 })

end AirHeaterRepo

/-!
## Claim theorems
-/

namespace AirHeaterRepo

/-- Claim C1.  The claim asserts that `step()` while Stopped returns the
`NoData` sentinel and mutates nothing.  The code's guard is
`if not self.is_running:` — truthiness of the bound method, which is always
truthy — so the guard never fires: on a freshly constructed simulator
(`start()` never called, `_running = False`) one `simulate_step()` runs the
whole loop body, returns actual values `(21.5, 21.5, 5.0)` instead of
`(None, None, None)`, and mutates the plant delay buffer and the controller
integral; the same happens after an explicit `stop()`. -/
theorem C1_step_while_stopped_mutates :
    AirHeaterSimulator.init.running = false ∧
    (AirHeaterSimulator.init.simulate_step 0).1 =
      (some (43/2), some (43/2), some 5) ∧
    (AirHeaterSimulator.init.simulate_step 0).2.heater.u_buffer = [0, 5] ∧
    (AirHeaterSimulator.init.simulate_step 0).2.controller.integral = 7/20 ∧
    AirHeaterSimulator.init.heater.u_buffer = [0, 0] ∧
    AirHeaterSimulator.init.controller.integral = 0 ∧
    (AirHeaterSimulator.init.start.stop.simulate_step 0).2.heater.u_buffer
      = [0, 5] := by
  norm_num [AirHeaterSimulator.init, AirHeaterSimulator.simulate_step,
    AirHeaterSimulator.start, AirHeaterSimulator.stop,
    AirHeaterSimulator.is_running_truthy, PIController.update,
    PIController.init, AirHeater.update, AirHeater.init, LowpassFilter.update,
    LowpassFilter.init, sat5, max_def, min_def, List.replicate]

/-- Claim C2.  The claim asserts that `updateParameters` rejects `Ti ≤ 0`
synchronously with `InvalidParameter`.  In the source `update_parameters` is
five plain assignments with no validation (its embedding is a total function
into `AirHeaterSimulator`, with no error outcome): `ti = 0` is accepted and
stored, and the fault only appears later as a `ZeroDivisionError` inside
`PIController.update` (the `none` below). -/
theorem C2_ti_zero_accepted_then_division_fault :
    (AirHeaterSimulator.init.update_parameters 25 2 0 (1/20)
        (1/2)).controller.Ti = 0 ∧
    ((AirHeaterSimulator.init.update_parameters 25 2 0 (1/20)
        (1/2)).controller.update 25 (43/2)) = none := by
  norm_num [AirHeaterSimulator.init, AirHeaterSimulator.update_parameters,
    PIController.update, PIController.init]

/-- Claim C3.  The claim asserts that an exception inside a Running `step()`
moves the loop to Stopped (`isRunning()` subsequently `false`) and is
reported as a distinguishable error.  In the source the broad
`except` branch prints, assigns `self.is_running = False` — shadowing the
`is_running` method with a `bool`, so a subsequent `is_running()` call raises
`TypeError` (`none` below) rather than returning `False`, while `_running`
stays `True` — and returns `(None, None, None)`, the very same sentinel as
the `NoData` path, so the failure is indistinguishable and swallowed.
Scenario: `update_parameters` sets `Kp = 0`, `start()`, then one step whose
controller update raises `ZeroDivisionError`. -/
theorem C3_exception_swallowed_not_stopped :
    (((AirHeaterSimulator.init.update_parameters 25 0 (15/2) (1/20)
        (1/2)).start.simulate_step 0).1 = (none, none, none)) ∧
    (((AirHeaterSimulator.init.update_parameters 25 0 (15/2) (1/20)
        (1/2)).start.simulate_step 0).2.running = true) ∧
    (((AirHeaterSimulator.init.update_parameters 25 0 (15/2) (1/20)
        (1/2)).start.simulate_step 0).2.is_running_call = none) := by
  norm_num [AirHeaterSimulator.init, AirHeaterSimulator.update_parameters,
    AirHeaterSimulator.start, AirHeaterSimulator.simulate_step,
    AirHeaterSimulator.is_running_truthy, AirHeaterSimulator.is_running_call,
    PIController.update, PIController.init]

/-- Claim C5.  The claim asserts that after
`updateParameters(..., filterTf)` the filter coefficient satisfies
`α = Ts/(filterTf + Ts)`.  In the source `update_parameters` assigns
`self.filter.Tf = filter_tf` but `alpha` is computed only in
`LowpassFilter.__init__` and never recomputed: after changing `Tf` from
`0.5` to `1` the stored `α` is still `0.1/(0.5+0.1) = 1/6`, not
`0.1/(1+0.1) = 1/11`, so every subsequent filter update keeps using the old
time constant. -/
theorem C5_alpha_not_recomputed :
    (AirHeaterSimulator.init.update_parameters 25 2 (15/2) (1/20)
        1).filter.Tf = 1 ∧
    (AirHeaterSimulator.init.update_parameters 25 2 (15/2) (1/20)
        1).filter.Ts = 1/10 ∧
    (AirHeaterSimulator.init.update_parameters 25 2 (15/2) (1/20)
        1).filter.alpha = 1/6 ∧
    (1/6 : ℚ) ≠ (1/10) / (1 + 1/10) := by
  norm_num [AirHeaterSimulator.init, AirHeaterSimulator.update_parameters,
    LowpassFilter.init]

/-- The anti-windup clamp of `PIController.update` bounds the integral
accumulator by `5/Kp` in magnitude whenever `Kp > 0`. -/
lemma abs_windup_clamp_le {Kp x : ℚ} (hKp : 0 < Kp) :
    |max (-5 / Kp) (min (5 / Kp) x)| ≤ 5 / Kp := by
  have h5 : (0:ℚ) < 5 / Kp := by positivity
  rw [abs_le]
  constructor
  · have hneg : -5 / Kp = -(5 / Kp) := by ring
    rw [hneg]
    exact le_max_left _ _
  · apply max_le
    · have hneg : -5 / Kp = -(5 / Kp) := by ring
      rw [hneg]
      linarith
    · exact min_le_left _ _

/-- Claim C4, counterexample to the claim as stated.  With `Kp = 1 > 0`,
`Ti = 0.5` and the single update `update(100, 0)`, the post-clamp integral is
`5` (the clamp bound `5/Kp`), and the integral term's contribution to the
control signal, `(Kp/Ti)·integral`, is `(1/0.5)·5 = 10`, of magnitude
greater than `5` — the claimed bound fails for `Ti < 1`. -/
theorem C4_counterexample_contribution_exceeds_five :
    ((PIController.init 1 (1/2) (1/10)).update 100 0).map
      (fun p => (p.2.Kp / p.2.Ti) * p.2.integral) = some 10 ∧
    ¬ (|(10:ℚ)| ≤ 5) := by
  norm_num [PIController.update, PIController.init, sat5, max_def, min_def]

/-- Claim C4, amended.  For every controller state with `Kp > 0`, every
setpoint/measurement and every update that returns (so for every sequence of
updates, since the clamp runs on each one), the post-clamp integral satisfies
`|Kp·integral| ≤ 5` — the integral term alone cannot exceed the actuator
range regardless of the gain `Kp` — and hence the integral contribution
`(Kp/Ti)·integral` is within `5` in magnitude whenever additionally
`Ti ≥ 1`; for `0 < Ti < 1` it is only bounded by `5/Ti`, which exceeds
`5`. -/
theorem C4_amended_integral_contribution_bound (c : PIController)
    (sp m : ℚ) (p : ℚ × PIController)
    (hKp : 0 < c.Kp) (h : c.update sp m = some p) :
    |p.2.Kp * p.2.integral| ≤ 5 ∧
    (1 ≤ c.Ti → |(p.2.Kp / p.2.Ti) * p.2.integral| ≤ 5) := by
  simp only [PIController.update] at h
  rw [if_neg (ne_of_gt hKp)] at h
  by_cases hTi : c.Ti = 0
  · rw [if_pos hTi] at h
    exact absurd h (by simp)
  · rw [if_neg hTi] at h
    have h' := Option.some.inj h
    subst h'
    simp only
    have habs := abs_windup_clamp_le (x := c.integral + c.Ts * (sp - m)) hKp
    have hKmul : |c.Kp * max (-5 / c.Kp)
        (min (5 / c.Kp) (c.integral + c.Ts * (sp - m)))| ≤ 5 := by
      rw [abs_mul, abs_of_pos hKp]
      calc c.Kp * |max (-5 / c.Kp)
            (min (5 / c.Kp) (c.integral + c.Ts * (sp - m)))|
          ≤ c.Kp * (5 / c.Kp) := mul_le_mul_of_nonneg_left habs (le_of_lt hKp)
        _ = 5 := by field_simp
    refine ⟨hKmul, fun hTi1 => ?_⟩
    have hTipos : (0:ℚ) < c.Ti := lt_of_lt_of_le one_pos hTi1
    rw [div_mul_eq_mul_div, abs_div, abs_of_pos hTipos, div_le_iff₀ hTipos]
    nlinarith [hKmul]

/-- Concrete instance of `C4_amended_integral_contribution_bound` at the
default controller `(Kp=2, Ti=7.5, Ts=0.1)`, `update(25, 21.5)`: the
post-clamp integral is `0.35`, `|Kp·integral| = 0.7 ≤ 5` and the
contribution `|(Kp/Ti)·integral| = 7/75 ≤ 5`. -/
theorem C4_amended_integral_contribution_bound_witness :
    0 < (PIController.init 2 (15/2) (1/10)).Kp ∧
    1 ≤ (PIController.init 2 (15/2) (1/10)).Ti ∧
    |(2:ℚ) * (7/20)| ≤ 5 ∧ |((2:ℚ) / (15/2)) * (7/20)| ≤ 5 := by
  refine ⟨by norm_num [PIController.init], by norm_num [PIController.init],
    ?_, ?_⟩
  · exact (C4_amended_integral_contribution_bound
      (PIController.init 2 (15/2) (1/10)) 25 (43/2)
      (5, ⟨2, 15/2, 1/10, 7/20, 7/2, 5⟩)
      (by norm_num [PIController.init])
      (by norm_num [PIController.update, PIController.init, sat5,
        max_def, min_def])).1
  · exact (C4_amended_integral_contribution_bound
      (PIController.init 2 (15/2) (1/10)) 25 (43/2)
      (5, ⟨2, 15/2, 1/10, 7/20, 7/2, 5⟩)
      (by norm_num [PIController.init])
      (by norm_num [PIController.update, PIController.init, sat5,
        max_def, min_def])).2 (by norm_num [PIController.init])

/-- Claim C10: `PIController.update` with `Kp = 0` does not return a control
signal; the anti-windup clamp's `-5.0/self.Kp` raises `ZeroDivisionError`
(the `none` outcome), for every setpoint, measurement and controller
state. -/
theorem C10_kp_zero_update_fails (c : PIController) (setpoint measurement : ℚ)
    (hKp : c.Kp = 0) : c.update setpoint measurement = none := by
  simp [PIController.update, hKp]

/-- Concrete instance of `C10_kp_zero_update_fails` at the constructor state
`PIController(Kp=0, Ti=7.5, Ts=0.1)` with `setpoint = 25`,
`measurement = 21`. -/
theorem C10_kp_zero_update_fails_witness :
    (PIController.init 0 (15/2) (1/10)).Kp = 0 ∧
    (PIController.init 0 (15/2) (1/10)).update 25 21 = none :=
  ⟨rfl, C10_kp_zero_update_fails (PIController.init 0 (15/2) (1/10)) 25 21 rfl⟩

/-- Claim C7: for every input `u`, noise sample and plant state,
`AirHeater.update` sets the new internal state to
`Tout + (Ts/θt)·(-Tout + Kh·u_d + Tenv)` where `u_d` is the value consumed
from the delay FIFO after the input was clamped to `[0, 5]`, returns the new
state plus the noise sample (returned value − noise = new internal state,
the stored state staying the noiseless ground truth), and advances the FIFO
by the clamped input. -/
theorem C7_plant_update_dynamics (h : AirHeater) (u noise : ℚ) :
    (h.update u noise).2.Tout =
      h.Tout + (h.Ts / h.theta_t) * (-h.Tout + h.Kh * h.delayedOf u + h.Tenv) ∧
    (h.update u noise).1 - noise = (h.update u noise).2.Tout ∧
    (h.update u noise).2.u_buffer = (h.u_buffer ++ [sat5 u]).tail ∧
    0 ≤ sat5 u ∧ sat5 u ≤ 5 := by
  refine ⟨rfl, by simp [AirHeater.update], rfl, le_max_left _ _,
    max_le (by norm_num) (min_le_left _ _)⟩

/-- Claim C8: (i) every control signal actually returned by
`PIController.update` lies in `[0, 5]`; (ii) whenever every entry of the
delay buffer lies in `[0, 5]` — which holds at construction (iii) and is
preserved by every `AirHeater.update` (second half of (ii)) — the delayed
input actually applied to the plant dynamics lies in `[0, 5]`.  Together
these give the saturation bounds after every update/step for any unclamped
input. -/
theorem C8_saturation_bounds :
    (∀ (c : PIController) (sp m : ℚ) (p : ℚ × PIController),
        c.update sp m = some p → 0 ≤ p.1 ∧ p.1 ≤ 5) ∧
    (∀ (h : AirHeater) (u noise : ℚ),
        (∀ x ∈ h.u_buffer, 0 ≤ x ∧ x ≤ 5) →
        (0 ≤ h.delayedOf u ∧ h.delayedOf u ≤ 5) ∧
        (∀ x ∈ (h.update u noise).2.u_buffer, 0 ≤ x ∧ x ≤ 5)) ∧
    (∀ (Kh th Ts Tenv ns : ℚ) (N : ℕ),
        ∀ x ∈ (AirHeater.init Kh th Ts Tenv ns N).u_buffer,
          0 ≤ x ∧ x ≤ 5) := by
  have hsat : ∀ u : ℚ, 0 ≤ sat5 u ∧ sat5 u ≤ 5 := fun u =>
    ⟨le_max_left _ _, max_le (by norm_num) (min_le_left _ _)⟩
  refine ⟨?_, ?_, ?_⟩
  · intro c sp m p h
    simp only [PIController.update] at h
    by_cases h1 : c.Kp = 0
    · rw [if_pos h1] at h
      exact absurd h (by simp)
    · rw [if_neg h1] at h
      by_cases h2 : c.Ti = 0
      · rw [if_pos h2] at h
        exact absurd h (by simp)
      · rw [if_neg h2] at h
        have h' := Option.some.inj h
        subst h'
        exact hsat _
  · intro h u noise hbuf
    have hmem : ∀ x ∈ h.u_buffer ++ [sat5 u], 0 ≤ x ∧ x ≤ 5 := by
      intro x hx
      rcases List.mem_append.1 hx with hx | hx
      · exact hbuf x hx
      · rw [List.mem_singleton] at hx
        subst hx
        exact hsat u
    constructor
    · rw [AirHeater.delayedOf]
      cases hb : h.u_buffer with
      | nil => simpa using hsat u
      | cons b bs =>
          exact hbuf b (by rw [hb]; exact List.mem_cons_self b bs)
    · intro x hx
      have hx' : x ∈ h.u_buffer ++ [sat5 u] := by
        apply List.mem_of_mem_tail
        simpa [AirHeater.update] using hx
      exact hmem x hx'
  · intro Kh th Ts Tenv ns N x hx
    have hx0 : x = 0 := by
      simpa using List.eq_of_mem_replicate (by simpa [AirHeater.init] using hx)
    subst hx0
    norm_num

/-- `AirHeater.update` replaces the delay buffer by append-then-pop of the
saturated input. -/
lemma AirHeater.update_buffer (h : AirHeater) (u noise : ℚ) :
    (h.update u noise).2.u_buffer = (h.u_buffer ++ [sat5 u]).tail := rfl

/-- Popping the head commutes with appending further elements on a list that
already ends in at least one element. -/
lemma tail_append_cons (l : List ℚ) (a : ℚ) (l₂ : List ℚ) :
    (l ++ [a]).tail ++ l₂ = (l ++ a :: l₂).tail := by
  cases l <;> simp

lemma AirHeater.runInputs_cons (h : AirHeater) (u : ℚ) (us : List ℚ) :
    h.runInputs (u :: us) = ((h.update u 0).2).runInputs us := rfl

/-- After consuming `us`, the delay buffer is what remains of the initial
buffer followed by the saturated inputs, the first `us.length` entries
popped off. -/
lemma AirHeater.buffer_runInputs (h : AirHeater) (us : List ℚ) :
    (h.runInputs us).u_buffer = (h.u_buffer ++ us.map sat5).drop us.length := by
  induction us generalizing h with
  | nil => simp [AirHeater.runInputs]
  | cons u rest ih =>
      rw [AirHeater.runInputs_cons, ih, AirHeater.update_buffer,
        tail_append_cons, ← List.drop_one, List.drop_drop, Nat.add_comm 1]
      simp

/-- The delayed values consumed over a run are the initial buffer contents
followed by the saturated inputs, cut to the number of steps. -/
lemma AirHeater.delayedSeq_eq (h : AirHeater) (us : List ℚ) :
    h.delayedSeq us = (h.u_buffer ++ us.map sat5).take us.length := by
  induction us generalizing h with
  | nil => simp [AirHeater.delayedSeq]
  | cons u rest ih =>
      rw [AirHeater.delayedSeq, ih, AirHeater.update_buffer]
      cases hb : h.u_buffer with
      | nil => simp [AirHeater.delayedOf, hb]
      | cons b bs => simp [AirHeater.delayedOf, hb, List.take_succ_cons]

/-- Claim C6: the delay line of a plant built with depth `N` is a pure FIFO
pre-filled with `N` zeros.  First conjunct: over any run, the consumed
delayed values are exactly `N` zeros followed by the saturated inputs in
order.  Second conjunct: the value consumed at step `k` is `0` for the first
`N` steps and thereafter the saturated input of step `k − N` (for `N = 0`
this is the current step's saturated input).  Third conjunct: the buffer
length equals `N` after every number of updates. -/
theorem C6_delay_buffer_fifo (Kh th Ts Tenv ns : ℚ) (N : ℕ) (us : List ℚ)
    (k m : ℕ) (hk : k < us.length) :
    (AirHeater.init Kh th Ts Tenv ns N).delayedSeq us
        = (List.replicate N (0:ℚ) ++ us.map sat5).take us.length ∧
    ((AirHeater.init Kh th Ts Tenv ns N).runInputs (us.take k)).delayedOf
        (us.getD k 0)
      = (if k < N then 0 else sat5 (us.getD (k - N) 0)) ∧
    ((AirHeater.init Kh th Ts Tenv ns N).runInputs
        (us.take m)).u_buffer.length = N := by
  refine ⟨AirHeater.delayedSeq_eq _ us, ?_, ?_⟩
  · rw [AirHeater.delayedOf, AirHeater.buffer_runInputs,
      List.headD_eq_head?_getD]
    have hlen : (us.take k).length = k := by
      rw [List.length_take]
      omega
    have hlenL : ((AirHeater.init Kh th Ts Tenv ns N).u_buffer
        ++ (us.take k).map sat5).length = N + k := by
      simp only [AirHeater.init, List.length_append, List.length_replicate,
        List.length_map, List.length_take]
      omega
    have hdrop : List.drop ((us.take k).length)
          ((AirHeater.init Kh th Ts Tenv ns N).u_buffer
            ++ (us.take k).map sat5) ++ [sat5 (us.getD k 0)]
        = List.drop k (((AirHeater.init Kh th Ts Tenv ns N).u_buffer
            ++ (us.take k).map sat5) ++ [sat5 (us.getD k 0)]) := by
      rw [hlen]
      exact (List.drop_append_of_le_length (by omega)).symm
    rw [hdrop, List.head?_drop]
    have husk : us[k]? = some (us.getD k 0) := by
      rw [List.getElem?_eq_getElem hk, List.getD_eq_getElem us 0 hk]
    have hM : ((AirHeater.init Kh th Ts Tenv ns N).u_buffer
          ++ (us.take k).map sat5) ++ [sat5 (us.getD k 0)]
        = List.replicate N (0:ℚ) ++ (us.take (k+1)).map sat5 := by
      rw [List.append_assoc, List.take_succ, husk]
      simp [AirHeater.init]
    rw [hM, List.getElem?_append]
    by_cases hkN : k < N
    · rw [if_pos hkN, if_pos (by simpa using hkN)]
      simp [List.getElem?_replicate, hkN]
    · rw [if_neg hkN, if_neg (by simpa using hkN)]
      rw [List.length_replicate, List.getElem?_map, List.getElem?_take,
        if_pos (by omega)]
      have husn : us[k - N]? = some (us.getD (k - N) 0) := by
        have hkN' : k - N < us.length := by omega
        rw [List.getElem?_eq_getElem hkN', List.getD_eq_getElem us 0 hkN']
      rw [husn]
      simp
  · rw [AirHeater.buffer_runInputs, List.length_drop]
    simp only [AirHeater.init, List.length_append, List.length_replicate,
      List.length_map, List.length_take]
    omega

/-- Concrete instance of `C6_delay_buffer_fifo` with depth `N = 2` and the
input sequence `[7, 1, -3, 2]` (exercising both saturation bounds), read at
step `k = 2` and after `m = 3` updates. -/
theorem C6_delay_buffer_fifo_witness :
    2 < ([7, 1, -3, 2] : List ℚ).length ∧
    ((AirHeater.init (7/2) 22 (1/10) (43/2) (1/20) 2).delayedSeq
          [7, 1, -3, 2]
        = (List.replicate 2 (0:ℚ)
            ++ ([7, 1, -3, 2] : List ℚ).map sat5).take
            ([7, 1, -3, 2] : List ℚ).length ∧
      ((AirHeater.init (7/2) 22 (1/10) (43/2) (1/20) 2).runInputs
          (([7, 1, -3, 2] : List ℚ).take 2)).delayedOf
          (([7, 1, -3, 2] : List ℚ).getD 2 0)
        = (if 2 < 2 then 0
           else sat5 (([7, 1, -3, 2] : List ℚ).getD (2 - 2) 0)) ∧
      ((AirHeater.init (7/2) 22 (1/10) (43/2) (1/20) 2).runInputs
          (([7, 1, -3, 2] : List ℚ).take 3)).u_buffer.length = 2) :=
  ⟨by norm_num,
   C6_delay_buffer_fifo (7/2) 22 (1/10) (43/2) (1/20) 2 [7, 1, -3, 2] 2 3
     (by norm_num)⟩

/-- Concrete instance of `C8_saturation_bounds`: the default controller's
first update `update(25, 21.5)` returns the saturated signal `5 ∈ [0, 5]`;
on the default plant (buffer `[0, 0]`) the input applied to the dynamics by
`update(7)` lies in `[0, 5]`, and the entry `0` of the freshly constructed
buffer lies in `[0, 5]`. -/
theorem C8_saturation_bounds_witness :
    (0 ≤ (5:ℚ) ∧ (5:ℚ) ≤ 5) ∧
    (0 ≤ (AirHeater.init (7/2) 22 (1/10) (43/2) (1/20) 2).delayedOf 7 ∧
      (AirHeater.init (7/2) 22 (1/10) (43/2) (1/20) 2).delayedOf 7 ≤ 5) ∧
    (0 ≤ (0:ℚ) ∧ (0:ℚ) ≤ 5) := by
  refine ⟨?_, ?_, ?_⟩
  · exact C8_saturation_bounds.1 (PIController.init 2 (15/2) (1/10)) 25 (43/2)
      (5, ⟨2, 15/2, 1/10, 7/20, 7/2, 5⟩)
      (by norm_num [PIController.update, PIController.init, sat5,
        max_def, min_def])
  · exact (C8_saturation_bounds.2.1
      (AirHeater.init (7/2) 22 (1/10) (43/2) (1/20) 2) 7 0
      (by norm_num [AirHeater.init, List.replicate])).1
  · exact C8_saturation_bounds.2.2 (7/2) 22 (1/10) (43/2) (1/20) 2 0
      (by norm_num [AirHeater.init, List.replicate])

/-- `LowpassFilter.update` never touches `alpha`, so it is invariant along
any iteration. -/
lemma LowpassFilter.iterate_alpha (f : LowpassFilter) (x : ℚ) (n : ℕ) :
    (f.iterate x n).alpha = f.alpha := by
  induction n with
  | zero => rfl
  | succ n ih => simp [LowpassFilter.iterate, LowpassFilter.update, ih]

/-- One constant-input update contracts the distance to the input by the
factor `1 - α` with `α = Ts/(Tf + Ts)`. -/
lemma LowpassFilter.constRun_succ_sub (Tf Ts y0 x : ℚ) (n : ℕ) :
    LowpassFilter.constRun Tf Ts y0 x (n+1) - x
      = (1 - Ts / (Tf + Ts)) * (LowpassFilter.constRun Tf Ts y0 x n - x) := by
  have ha : ((LowpassFilter.init Tf Ts y0).iterate x n).alpha
      = Ts / (Tf + Ts) := LowpassFilter.iterate_alpha _ x n
  simp only [LowpassFilter.constRun, LowpassFilter.iterate,
    LowpassFilter.update, ha]
  ring

/-- Closed form of the constant-input error: geometric decay. -/
lemma LowpassFilter.constRun_sub_closed (Tf Ts y0 x : ℚ) (n : ℕ) :
    LowpassFilter.constRun Tf Ts y0 x n - x
      = (1 - Ts / (Tf + Ts)) ^ n * (y0 - x) := by
  induction n with
  | zero => simp [LowpassFilter.constRun, LowpassFilter.iterate,
      LowpassFilter.init]
  | succ n ih => rw [LowpassFilter.constRun_succ_sub, ih, pow_succ]; ring

/-- Claim C9, counterexample to the claim as stated.  With `Ts = 0.1 > 0`,
`Tf = 0.5 ≥ 0` and an initial filter state already equal to the constant
input (`y_init = x = 21.5`), the error `|filteredValue − x|` is `0` at
step 0 and `0` at step 1, so it is not strictly decreasing at every step. -/
theorem C9_counterexample_not_strictly_decreasing :
    ¬ (|LowpassFilter.constRun (1/2) (1/10) (43/2) (43/2) 1 - 43/2|
        < |LowpassFilter.constRun (1/2) (1/10) (43/2) (43/2) 0 - 43/2|) := by
  norm_num [LowpassFilter.constRun, LowpassFilter.iterate,
    LowpassFilter.update, LowpassFilter.init]

/-- Claim C9, amended.  For constant input `x`, any initial state, and
`α = Ts/(Tf + Ts)` with `Ts > 0`, `Tf ≥ 0`: the error satisfies
`|filteredValue' − x| = (1−α)·|filteredValue − x|` at every step; it is
strictly decreasing at every step at which `filteredValue ≠ x` (once equal
it stays equal, so strictness for all steps and all initial states fails);
and `filteredValue` converges to `x`: for every `ε > 0` the error is
eventually below `ε`. -/
theorem C9_amended_filter_converges (Tf Ts y0 x : ℚ)
    (hTs : 0 < Ts) (hTf : 0 ≤ Tf) :
    (∀ n : ℕ, |LowpassFilter.constRun Tf Ts y0 x (n+1) - x|
        = (1 - (LowpassFilter.init Tf Ts y0).alpha)
            * |LowpassFilter.constRun Tf Ts y0 x n - x|) ∧
    (∀ n : ℕ, LowpassFilter.constRun Tf Ts y0 x n ≠ x →
        |LowpassFilter.constRun Tf Ts y0 x (n+1) - x|
          < |LowpassFilter.constRun Tf Ts y0 x n - x|) ∧
    (∀ ε : ℚ, 0 < ε → ∃ M : ℕ, ∀ n, M ≤ n →
        |LowpassFilter.constRun Tf Ts y0 x n - x| < ε) := by
  have hTfTs : 0 < Tf + Ts := by linarith
  have halpha : (LowpassFilter.init Tf Ts y0).alpha = Ts / (Tf + Ts) := rfl
  have ha1 : Ts / (Tf + Ts) ≤ 1 := by
    rw [div_le_one hTfTs]
    linarith
  have ha0 : 0 < Ts / (Tf + Ts) := div_pos hTs hTfTs
  have hr0 : 0 ≤ 1 - Ts / (Tf + Ts) := by linarith
  have hr1 : 1 - Ts / (Tf + Ts) < 1 := by linarith
  refine ⟨?_, ?_, ?_⟩
  · intro n
    rw [LowpassFilter.constRun_succ_sub, halpha, abs_mul, abs_of_nonneg hr0]
  · intro n hne
    rw [LowpassFilter.constRun_succ_sub, abs_mul, abs_of_nonneg hr0]
    have hpos : 0 < |LowpassFilter.constRun Tf Ts y0 x n - x| :=
      abs_pos.2 (sub_ne_zero.2 hne)
    calc (1 - Ts / (Tf + Ts)) * |LowpassFilter.constRun Tf Ts y0 x n - x|
        < 1 * |LowpassFilter.constRun Tf Ts y0 x n - x| :=
          mul_lt_mul_of_pos_right hr1 hpos
      _ = |LowpassFilter.constRun Tf Ts y0 x n - x| := one_mul _
  · intro ε hε
    set C := |y0 - x| with hC
    have hC0 : 0 ≤ C := abs_nonneg _
    have hεC : 0 < ε / (C + 1) := div_pos hε (by linarith)
    obtain ⟨M, hM⟩ := exists_pow_lt_of_lt_one hεC hr1
    refine ⟨M, fun n hn => ?_⟩
    rw [LowpassFilter.constRun_sub_closed, abs_mul, abs_pow,
      abs_of_nonneg hr0, ← hC]
    calc (1 - Ts / (Tf + Ts)) ^ n * C
        ≤ (1 - Ts / (Tf + Ts)) ^ M * C :=
          mul_le_mul_of_nonneg_right
            (pow_le_pow_of_le_one hr0 (by linarith) hn) hC0
      _ ≤ (ε / (C + 1)) * C := mul_le_mul_of_nonneg_right hM.le hC0
      _ < (ε / (C + 1)) * (C + 1) := mul_lt_mul_of_pos_left (lt_add_one C) hεC
      _ = ε := div_mul_cancel₀ ε (by linarith)

/-- Concrete instance of `C9_amended_filter_converges` with `Tf = 0.5`,
`Ts = 0.1`, initial value `0` and constant input `1`, read at step `0`. -/
theorem C9_amended_filter_converges_witness :
    (0:ℚ) < 1/10 ∧ (0:ℚ) ≤ 1/2 ∧
    |LowpassFilter.constRun (1/2) (1/10) 0 1 (0+1) - 1|
      = (1 - (LowpassFilter.init (1/2) (1/10) 0).alpha)
          * |LowpassFilter.constRun (1/2) (1/10) 0 1 0 - 1| :=
  ⟨by norm_num, by norm_num,
   (C9_amended_filter_converges (1/2) (1/10) 0 1 (by norm_num)
     (by norm_num)).1 0⟩

end AirHeaterRepo
